import Mathlib

/-!
Shallow embedding of the CORS filter middleware (package `cors`, file
`cors.go`) and proofs about its behaviour.

Byte strings are modelled as `List Char`; all inputs of interest are ASCII,
where Go's byte-level operations coincide with character-level operations.
Functions that can hit a runtime fault in Go (an out-of-range slice
expression) return `Option`, with `none` marking the fault.
-/

namespace CorsGo

/-- Ascii lower-casing of a single character, mirroring the `c ^ 0x20`
step applied to bytes in the range `'A'..'Z'` in `cors.go`. -/
def lowerChar (c : Char) : Char :=
  if 'A' ≤ c ∧ c ≤ 'Z' then Char.ofNat (c.toNat + 32) else c

/-- Ascii upper-casing of a single character; `bytes.ToUpper` restricted
to ASCII input. -/
def upperChar (c : Char) : Char :=
  if 'a' ≤ c ∧ c ≤ 'z' then Char.ofNat (c.toNat - 32) else c

/-- Models `bytes.ToUpper` on ASCII input (the only input the filter is
specified for). -/
def asciiUpper (s : List Char) : List Char := s.map upperChar

/-- Models `toLowerCase` from `cors.go`: lower-case every `'A'..'Z'` byte,
leave other bytes alone. -/
def toLowerCase (s : List Char) : List Char := s.map lowerChar

/-- Number of leading `' '` characters; the forward loop of `trimSpace`
(`for ; start < len(s) && s[start] == ' '; start++`). -/
def leadSpaces : List Char → Nat
  | [] => 0
  | c :: cs => if c = ' ' then leadSpaces cs + 1 else 0

/-- The backward loop of `trimSpace`
(`for ; end > 0 && s[end] == ' '; end--`), started at index `e`
(the caller passes `len s - 1`).  Returns the final value of `end`. -/
def backDown (s : List Char) : Nat → Nat
  | 0 => 0
  | e + 1 => if s.getD (e + 1) 'a' = ' ' then backDown s e else e + 1

/-- Models `trimSpace` from `cors.go`.  The Go code computes
`s[start : end+1]`; when `start > end+1` (which happens exactly on inputs
of two or more characters that are all spaces) that slice expression is
out of range and the Go program faults at run time, modelled here by
`none`.  The upper bound `end+1 ≤ len s` always holds, so it is not a
fault source. -/
def trimSpace (s : List Char) : Option (List Char) :=
  let start := leadSpaces s
  let stop : Nat :=
    match s.length with
    | 0 => 0
    | n + 1 => backDown s n + 1
  if start ≤ stop then some ((s.drop start).take (stop - start)) else none

/-- The scanning loop of `normalizeHeaders` from `cors.go`.  The Go loop
walks the byte array lower-casing in place; `cur` holds the bytes of the
current segment (from the last separator reset) after that in-place
lower-casing, and `cur = []` coincides with the Go condition
`start == i`.  Returns the collected segments together with the final
unfinished segment; `none` marks a fault inside `trimSpace`. -/
def nhGo : List Char → List Char → List (List Char) →
    Option (List (List Char) × List Char)
  | [], cur, ss => some (ss, cur)
  | ch :: rest, cur, ss =>
    if 'A' ≤ ch ∧ ch ≤ 'Z' then nhGo rest (cur ++ [lowerChar ch]) ss
    else if ch = ',' ∧ cur = [] then nhGo rest [] ss
    else if ch = ',' then
      match trimSpace cur with
      | none => none
      | some t => nhGo rest [] (ss ++ [t])
    else nhGo rest (cur ++ [ch]) ss

/-- Models `normalizeHeaders` from `cors.go`: lower-cased, space-trimmed
comma-separated tokens.  `none` marks the run-time fault inherited from
`trimSpace`. -/
def normalizeHeaders (headers : List Char) : Option (List (List Char)) :=
  match nhGo headers [] [] with
  | none => none
  | some (ss, cur) =>
    match (if cur ≠ [] then
            match trimSpace cur with
            | none => none
            | some t => some (ss ++ [t])
           else some ss) with
    | none => none
    | some ss1 =>
      if ss1.length = 0 then
        match trimSpace cur with
        | none => none
        | some t => some (ss1 ++ [t])
      else some ss1

/-- Models `strings.Split(s, ",")`. -/
def splitComma : List Char → List (List Char)
  | [] => [[]]
  | c :: cs =>
    if c = ',' then [] :: splitComma cs
    else
      match splitComma cs with
      | [] => [[c]]
      | t :: ts => (c :: t) :: ts

/-- Character class of `unicode.IsSpace` restricted to ASCII, the input
range the filter is specified for; used by `strings.TrimSpace`. -/
def isGoSpace (c : Char) : Bool :=
  c = ' ' ∨ c = '\t' ∨ c = '\n' ∨ c = '\x0b' ∨ c = '\x0c' ∨ c = '\r'

/-- Models `strings.TrimSpace` on ASCII input. -/
def goTrimSpace (s : List Char) : List Char :=
  ((s.dropWhile isGoSpace).reverse.dropWhile isGoSpace).reverse

/-- Models `strings.TrimSpace` at `String` type. -/
def goTrimSpaceStr (s : String) : String := String.mk (goTrimSpace s.toList)

/-- One token of the pattern compiled for a wildcard origin entry.  The Go
code builds `regexp.QuoteMeta(entry)` and then rewrites the escaped `\*`
into `.*` and `\?` into `.`; the resulting regular expression matches each
other character literally, `*` as an arbitrary run of non-newline
characters and `?` as one non-newline character. -/
inductive GTok where
  | lit : Char → GTok
  | anyseq : GTok
  | anychar : GTok
deriving DecidableEq, Repr

/-- Pattern compilation for a wildcard origin entry (the
`regexp.QuoteMeta` / `strings.Replace` pipeline of `initialize`). -/
def compileGlob (s : List Char) : List GTok :=
  s.map fun c => if c = '*' then .anyseq else if c = '?' then .anychar else .lit c

/-- Matching of a compiled pattern against a prefix of the given
character list (regular-expression semantics: `.` does not match a
newline). -/
def matchHere : List GTok → List Char → Bool
  | [], _ => true
  | .lit c :: ps, d :: cs => c = d && matchHere ps cs
  | .anychar :: ps, d :: cs => d ≠ '\n' && matchHere ps cs
  | .anyseq :: ps, cs =>
    matchHere ps cs ||
      (match cs with
       | [] => false
       | d :: cs1 => d ≠ '\n' && matchHere (.anyseq :: ps) cs1)
  | _ :: _, [] => false
termination_by ps cs => (cs.length, ps.length)

/-- Models `Regexp.MatchString` for the compiled pattern: unanchored
search, the pattern may match at any position. -/
def reMatch (p : List GTok) : List Char → Bool
  | [] => matchHere p []
  | c :: cs => matchHere p (c :: cs) || reMatch p cs

/-- Models the `Config` struct of `cors.go` (the `Logger` field carries no
policy content and is omitted). -/
structure Config where
  AllowedOrigins : String := ""
  AllowedMethods : String := ""
  AllowedHeaders : String := ""
  ExposedHeaders : String := ""
  MaxAge : Int := 0
  AllowCredentials : Bool := false
  ForwardRequest : Bool := false
deriving Repr

/-- Models the compiled `cors` struct of `cors.go`.  The Go maps
`allowedMethods` and `allowedHeaders` are modelled by their key lists,
membership standing for the map lookup. -/
structure Cors where
  allowedRegexOrigins : List (List GTok)
  allowedStaticOrigins : List (List Char)
  allowedSuffixOrigins : List (List Char)
  allowedMethods : List (List Char)
  allowedHeaders : List (List Char)
  allowedHeadersString : String
  allowedMethodsString : String
  hostName : String
  maxAge : String
  exposedHeaders : String
  exposeHeader : Bool
  allowAllOrigins : Bool
  allowAllHeaders : Bool
  allowCredentials : Bool
  forwardRequest : Bool
deriving Repr, DecidableEq

/-- Go constant `DefaultAllowedOrigin`. -/
def DefaultAllowedOrigin : String := "*"

/-- Go constant `DefaultAllowedMethods`. -/
def DefaultAllowedMethods : String := "GET,POST,HEAD,OPTIONS"

/-- Go constant `DefaultAllowedHeaders`. -/
def DefaultAllowedHeaders : String :=
  "Origin,Accept,Content-Type,Accept-Language,Content-Language,Last-Event-ID"

/-- Go constant `AccessControlAllowOrigin`. -/
def AccessControlAllowOrigin : String := "Access-Control-Allow-Origin"

/-- Go constant `AccessControlExposeHeaders`. -/
def AccessControlExposeHeaders : String := "Access-Control-Expose-Headers"

/-- Go constant `AccessControlControlMaxAge`. -/
def AccessControlControlMaxAge : String := "Access-Control-Max-Age"

/-- Go constant `AccessControlAllowMethods`. -/
def AccessControlAllowMethods : String := "Access-Control-Allow-Methods"

/-- Go constant `AccessControlAllowHeaders`. -/
def AccessControlAllowHeaders : String := "Access-Control-Allow-Headers"

/-- Go constant `AccessControlAllowCredentials`. -/
def AccessControlAllowCredentials : String := "Access-Control-Allow-Credentials"

/-- Go constant `AccessControlRequestMethod`. -/
def AccessControlRequestMethod : String := "Access-Control-Request-Method"

/-- Go constant `AccessControlRequestHeaders`. -/
def AccessControlRequestHeaders : String := "Access-Control-Request-Headers"

/-- Go constant `OriginHeader`. -/
def OriginHeader : String := "Origin"

/-- Go constant `VaryHeader`. -/
def VaryHeader : String := "Vary"

/-- Origin-classification step of `initialize`: one entry of the split
origins string is filed into the static, suffix or pattern bucket. -/
def classifyOrigin (c : Cors) (o : List Char) : Cors :=
  if '*' ∉ o then
    { c with allowedStaticOrigins := c.allowedStaticOrigins ++ [o] }
  else if ['*', '.'].isPrefixOf o then
    { c with allowedSuffixOrigins := c.allowedSuffixOrigins ++ [o.drop 2] }
  else if 0 < o.count '*' ∨ 0 < o.count '?' then
    { c with allowedRegexOrigins :=
        c.allowedRegexOrigins ++ [compileGlob (goTrimSpace o)] }
  else c

/-- The value of `normalizeHeaders` on the default allowed-headers
constant; `normalizeHeaders_default` below proves that the call in the Go
initializer returns exactly this value (it cannot fault). -/
def defaultHeadersList : List (List Char) :=
  (normalizeHeaders DefaultAllowedHeaders.toList).getD []

/-- Models `initialize` from `cors.go` (renamed: the source name is not
available here).  Returns `none` when `normalizeHeaders` faults on the
configured allowed-headers string; the call on the default headers
constant always succeeds (see `normalizeHeaders_default`), so its value is
used directly. -/
def initCors (config : Config) : Option Cors :=
    let c : Cors := {
      allowedRegexOrigins := []
      allowedStaticOrigins := []
      allowedSuffixOrigins := []
      allowedMethods := splitComma DefaultAllowedMethods.toList
      allowedHeaders := defaultHeadersList
      allowedHeadersString := DefaultAllowedHeaders
      allowedMethodsString := DefaultAllowedMethods
      hostName := ""
      maxAge := "1800"
      exposedHeaders := ""
      exposeHeader := false
      allowAllOrigins := true
      allowAllHeaders := false
      allowCredentials := false
      forwardRequest := config.ForwardRequest }
    let c :=
      if 0 < config.AllowedOrigins.length ∧ config.AllowedOrigins ≠ "*" then
        { (splitComma config.AllowedOrigins.toList).foldl classifyOrigin c with
            allowAllOrigins := false }
      else c
    let c :=
      if 0 < config.AllowedMethods.length then
        { c with
            allowedMethods := splitComma (asciiUpper config.AllowedMethods.toList)
            allowedMethodsString := config.AllowedMethods }
      else c
    match (if 0 < config.AllowedHeaders.length then
            if config.AllowedHeaders = goTrimSpaceStr "*" then
              some { c with allowAllHeaders := true, allowedHeadersString := "*" }
            else
              match normalizeHeaders config.AllowedHeaders.toList with
              | none => none
              | some hs =>
                some { c with
                        allowedHeaders := hs
                        allowedHeadersString := config.AllowedHeaders }
           else some c) with
    | none => none
    | some c =>
      let c := if 0 < config.MaxAge then { c with maxAge := toString config.MaxAge } else c
      let c :=
        if 0 < config.ExposedHeaders.length then
          { c with exposedHeaders := config.ExposedHeaders, exposeHeader := true }
        else c
      let c :=
        if config.AllowCredentials ∧ c.allowAllOrigins then c
        else { c with allowCredentials := config.AllowCredentials }
      some c

/-- Models `isOriginAllowed` from `cors.go`.  Go's `len` compares byte
lengths, which coincide with character counts on ASCII input. -/
def isOriginAllowed (c : Cors) (origin : String) : Bool :=
  if c.allowAllOrigins then true
  else
    let ol := origin.toList
    if c.allowedStaticOrigins.any (fun o => o = ol) then true
    else if c.allowedSuffixOrigins.any
        (fun o => decide (o.length ≤ ol.length) && o.isSuffixOf ol) then true
    else c.allowedRegexOrigins.any (fun p => reMatch p ol)

/-- Models `isMethodAllowed` from `cors.go`: lookup in the methods map. -/
def isMethodAllowed (c : Cors) (method : String) : Bool :=
  c.allowedMethods.contains method.toList

/-- Models `areReqHeadersAllowed` from `cors.go`; `none` marks the
run-time fault inherited from `normalizeHeaders`. -/
def areReqHeadersAllowed (c : Cors) (reqHeaders : String) : Option Bool :=
  if c.allowAllHeaders = true ∨ reqHeaders.length = 0 then some true
  else
    match normalizeHeaders reqHeaders.toList with
    | none => none
    | some hs => some (hs.all fun h => c.allowedHeaders.contains h)

/-- The request data consumed by the filter.  `r.Header.Get` yields `""`
for an absent header, so absence is modelled by the empty string. -/
structure Request where
  method : String
  origin : String := ""
  acrm : String := ""
  acrh : String := ""

/-- The observable outcome of one filter invocation: the response headers
added by the filter (in order), the status written by the filter (`none`
when the status is left to the next handler), and whether the request was
forwarded to the next handler. -/
structure Response where
  headers : List (String × String)
  status : Option Nat
  forwarded : Bool
deriving Repr, DecidableEq

/-- Models the per-request behaviour of the handler built by `Filter` in
`cors.go`; `none` marks the run-time fault inherited from
`normalizeHeaders` via `areReqHeadersAllowed`. -/
def filter (c : Cors) (r : Request) : Option Response :=
  if r.origin = "" then some { headers := [], status := none, forwarded := true }
  else
    let hs := [(VaryHeader, OriginHeader)]
    if isOriginAllowed c r.origin = false then
      some { headers := hs, status := some 403, forwarded := false }
    else if isMethodAllowed c r.method = false then
      some { headers := hs, status := some 405, forwarded := false }
    else
      let hs := hs ++ [(AccessControlAllowOrigin, r.origin)]
      if r.method ≠ "OPTIONS" then
        let hs := hs ++ (if c.exposeHeader then
          [(AccessControlExposeHeaders, c.exposedHeaders)] else [])
        let hs := hs ++ (if c.allowCredentials then
          [(AccessControlAllowCredentials, "true")] else [])
        some { headers := hs, status := none, forwarded := true }
      else
        let hs := hs ++ [(VaryHeader,
          AccessControlRequestMethod ++ ", " ++ AccessControlRequestHeaders)]
        if isMethodAllowed c r.acrm = false then
          some { headers := hs, status := some 405, forwarded := false }
        else
          match areReqHeadersAllowed c r.acrh with
          | none => none
          | some ok =>
            if ok = false then
              some { headers := hs, status := some 403, forwarded := false }
            else
              let hs := hs ++ [(AccessControlAllowMethods, c.allowedMethodsString)]
              let hs := hs ++ [(AccessControlAllowHeaders,
                if c.allowAllHeaders then r.acrh else c.allowedHeadersString)]
              let hs := hs ++ (if c.allowCredentials then
                [(AccessControlAllowCredentials, "true")] else [])
              let hs := hs ++ (if c.maxAge ≠ "0" then
                [(AccessControlControlMaxAge, c.maxAge)] else [])
              if c.forwardRequest then
                some { headers := hs, status := none, forwarded := true }
              else
                some { headers := hs, status := some 200, forwarded := false }

/-- A policy value with every bucket empty; only used as the default of
`Option.getD` in concrete evaluations. -/
def emptyCors : Cors := {
  allowedRegexOrigins := []
  allowedStaticOrigins := []
  allowedSuffixOrigins := []
  allowedMethods := []
  allowedHeaders := []
  allowedHeadersString := ""
  allowedMethodsString := ""
  hostName := ""
  maxAge := ""
  exposedHeaders := ""
  exposeHeader := false
  allowAllOrigins := false
  allowAllHeaders := false
  allowCredentials := false
  forwardRequest := false }

/-- The compiled policy of a configuration, for concrete evaluations. -/
def corsOf (config : Config) : Cors := (initCors config).getD emptyCors

/-- The response of a concrete filter run, for concrete evaluations. -/
def respOf (c : Cors) (r : Request) : Response :=
  (filter c r).getD { headers := [], status := none, forwarded := false }

/-- True when the filter added at least one response header with the
given name. -/
def hasHeader (resp : Response) (name : String) : Bool :=
  resp.headers.any fun kv => kv.1 == name

/-! Helper lemmas. -/

/-- The `normalizeHeaders` call on the default headers constant made by
the Go initializer succeeds, returning `defaultHeadersList`. -/
theorem normalizeHeaders_default :
    normalizeHeaders DefaultAllowedHeaders.toList = some defaultHeadersList := by
  decide

theorem splitComma_single : ∀ l : List Char, ',' ∉ l → splitComma l = [l]
  | [], _ => rfl
  | c :: cs, h => by
    have hc : ¬ c = ',' := fun e => h (e ▸ List.mem_cons_self c cs)
    have ih := splitComma_single cs fun m => h (List.mem_cons_of_mem _ m)
    simp [splitComma, hc, ih]

/-- When the compiled policy has credentials off, no filter outcome adds
the credentials header. -/
theorem filter_no_credentials (c : Cors) (r : Request) (resp : Response)
    (hcred : c.allowCredentials = false) (hf : filter c r = some resp) :
    hasHeader resp AccessControlAllowCredentials = false := by
  unfold filter at hf
  rw [hcred] at hf
  simp only [Bool.false_eq_true, if_false] at hf
  repeat' split at hf
  all_goals simp only [Option.some.injEq, reduceCtorEq] at hf
  all_goals subst hf
  all_goals
    simp [hasHeader, VaryHeader, OriginHeader, AccessControlAllowOrigin,
      AccessControlExposeHeaders, AccessControlAllowMethods,
      AccessControlAllowHeaders, AccessControlControlMaxAge,
      AccessControlAllowCredentials]

/-- When the compiled policy is not in wildcard-echo mode, every
`Access-Control-Allow-Headers` response header the filter adds carries the
stored allow-list string. -/
theorem filter_allow_headers_value (c : Cors) (r : Request) (resp : Response)
    (v : String) (hall : c.allowAllHeaders = false) (hf : filter c r = some resp)
    (hv : (AccessControlAllowHeaders, v) ∈ resp.headers) :
    v = c.allowedHeadersString := by
  unfold filter at hf
  rw [hall] at hf
  simp only [Bool.false_eq_true, if_false] at hf
  repeat' split at hf
  all_goals simp only [Option.some.injEq, reduceCtorEq] at hf
  all_goals subst hf
  all_goals
    simp_all [VaryHeader, OriginHeader, AccessControlAllowOrigin,
      AccessControlExposeHeaders, AccessControlAllowMethods,
      AccessControlAllowHeaders, AccessControlControlMaxAge,
      AccessControlAllowCredentials, Prod.ext_iff]

set_option maxHeartbeats 2000000 in
/-- When the configured origins resolve to allow-all, the compiler leaves
the credentials flag off. -/
theorem initCors_credentials_off (config : Config) (c : Cors)
    (hall : config.AllowedOrigins = "" ∨ config.AllowedOrigins = "*")
    (hinit : initCors config = some c) :
    c.allowCredentials = false := by
  rcases hall with h | h <;>
    (unfold initCors at hinit
     repeat' split at hinit
     all_goals simp only [Option.some.injEq, reduceCtorEq] at hinit
     all_goals subst hinit
     all_goals try simp_all
     all_goals split <;> simp_all)

/-- The classification step only fills the three origin buckets; every
other field of the policy is left unchanged. -/
theorem classifyOrigin_shape (c0 : Cors) (o : List Char) :
    ∃ rs ss sfs, classifyOrigin c0 o =
      { c0 with allowedRegexOrigins := rs, allowedStaticOrigins := ss,
                allowedSuffixOrigins := sfs } := by
  unfold classifyOrigin
  repeat' split
  all_goals exact ⟨_, _, _, rfl⟩

/-- Folding the classification step over the origin entries only fills
the three origin buckets. -/
theorem foldl_classifyOrigin_shape (l : List (List Char)) :
    ∀ c0 : Cors, ∃ rs ss sfs, l.foldl classifyOrigin c0 =
      { c0 with allowedRegexOrigins := rs, allowedStaticOrigins := ss,
                allowedSuffixOrigins := sfs } := by
  induction l with
  | nil => exact fun c0 => ⟨_, _, _, rfl⟩
  | cons o t ih =>
    intro c0
    obtain ⟨rs1, ss1, sfs1, h1⟩ := classifyOrigin_shape c0 o
    obtain ⟨rs, ss, sfs, h⟩ := ih (classifyOrigin c0 o)
    refine ⟨rs, ss, sfs, ?_⟩
    rw [List.foldl_cons, h, h1]

theorem foldl_classifyOrigin_allowAllHeaders (l : List (List Char)) (c0 : Cors) :
    (l.foldl classifyOrigin c0).allowAllHeaders = c0.allowAllHeaders := by
  obtain ⟨rs, ss, sfs, h⟩ := foldl_classifyOrigin_shape l c0; rw [h]

theorem foldl_classifyOrigin_allowedHeaders (l : List (List Char)) (c0 : Cors) :
    (l.foldl classifyOrigin c0).allowedHeaders = c0.allowedHeaders := by
  obtain ⟨rs, ss, sfs, h⟩ := foldl_classifyOrigin_shape l c0; rw [h]

theorem foldl_classifyOrigin_allowedHeadersString (l : List (List Char)) (c0 : Cors) :
    (l.foldl classifyOrigin c0).allowedHeadersString = c0.allowedHeadersString := by
  obtain ⟨rs, ss, sfs, h⟩ := foldl_classifyOrigin_shape l c0; rw [h]

theorem foldl_classifyOrigin_allowedMethods (l : List (List Char)) (c0 : Cors) :
    (l.foldl classifyOrigin c0).allowedMethods = c0.allowedMethods := by
  obtain ⟨rs, ss, sfs, h⟩ := foldl_classifyOrigin_shape l c0; rw [h]

theorem foldl_classifyOrigin_allowedMethodsString (l : List (List Char)) (c0 : Cors) :
    (l.foldl classifyOrigin c0).allowedMethodsString = c0.allowedMethodsString := by
  obtain ⟨rs, ss, sfs, h⟩ := foldl_classifyOrigin_shape l c0; rw [h]

theorem foldl_classifyOrigin_maxAge (l : List (List Char)) (c0 : Cors) :
    (l.foldl classifyOrigin c0).maxAge = c0.maxAge := by
  obtain ⟨rs, ss, sfs, h⟩ := foldl_classifyOrigin_shape l c0; rw [h]

theorem foldl_classifyOrigin_exposeHeader (l : List (List Char)) (c0 : Cors) :
    (l.foldl classifyOrigin c0).exposeHeader = c0.exposeHeader := by
  obtain ⟨rs, ss, sfs, h⟩ := foldl_classifyOrigin_shape l c0; rw [h]

theorem foldl_classifyOrigin_exposedHeaders (l : List (List Char)) (c0 : Cors) :
    (l.foldl classifyOrigin c0).exposedHeaders = c0.exposedHeaders := by
  obtain ⟨rs, ss, sfs, h⟩ := foldl_classifyOrigin_shape l c0; rw [h]

theorem foldl_classifyOrigin_allowCredentials (l : List (List Char)) (c0 : Cors) :
    (l.foldl classifyOrigin c0).allowCredentials = c0.allowCredentials := by
  obtain ⟨rs, ss, sfs, h⟩ := foldl_classifyOrigin_shape l c0; rw [h]

theorem foldl_classifyOrigin_forwardRequest (l : List (List Char)) (c0 : Cors) :
    (l.foldl classifyOrigin c0).forwardRequest = c0.forwardRequest := by
  obtain ⟨rs, ss, sfs, h⟩ := foldl_classifyOrigin_shape l c0; rw [h]

theorem foldl_classifyOrigin_allowAllOrigins (l : List (List Char)) (c0 : Cors) :
    (l.foldl classifyOrigin c0).allowAllOrigins = c0.allowAllOrigins := by
  obtain ⟨rs, ss, sfs, h⟩ := foldl_classifyOrigin_shape l c0; rw [h]

theorem string_eq_empty_of_length_zero (s : String) (h : s.length = 0) : s = "" := by
  rcases s with ⟨data⟩
  cases data
  · rfl
  · simp [String.length] at h

set_option maxHeartbeats 2000000 in
/-- When the configured allowed-headers string is not the literal `"*"`,
the compiler does not enable wildcard-echo mode: the stored allow-list
string is the configured string (or the default when none is configured)
and the header allow-set is its normalization. -/
theorem initCors_headers_literal (config : Config) (c : Cors)
    (hstar : config.AllowedHeaders ≠ "*")
    (hinit : initCors config = some c) :
    c.allowAllHeaders = false ∧
    (config.AllowedHeaders = "" → c.allowedHeadersString = DefaultAllowedHeaders) ∧
    (config.AllowedHeaders ≠ "" →
      c.allowedHeadersString = config.AllowedHeaders ∧
      normalizeHeaders config.AllowedHeaders.toList = some c.allowedHeaders) := by
  have hgs : goTrimSpaceStr "*" = "*" := by decide
  unfold initCors at hinit
  rw [hgs] at hinit
  repeat' split at hinit
  all_goals simp only [Option.some.injEq, reduceCtorEq] at hinit
  all_goals subst hinit
  all_goals try split
  all_goals refine ⟨?_, fun hE => ?_, fun hNE => ?_⟩
  all_goals try (exact absurd (string_eq_empty_of_length_zero _ (by omega)) hNE)
  all_goals
    simp_all [foldl_classifyOrigin_allowAllHeaders,
      foldl_classifyOrigin_allowedHeaders,
      foldl_classifyOrigin_allowedHeadersString]

theorem star_mem_of_prefix (o : List Char)
    (h : List.isPrefixOf ['*', '.'] o = true) : '*' ∈ o := by
  cases o with
  | nil => simp [List.isPrefixOf] at h
  | cons a t =>
    simp only [List.isPrefixOf, Bool.and_eq_true, beq_iff_eq] at h
    exact h.1 ▸ List.mem_cons_self a t

set_option maxHeartbeats 2000000 in
/-- A configuration whose origins string is one comma-free entry fills
exactly one origin bucket, selected by the shape of the entry: entries
without `*` are stored verbatim in the static bucket (a `?` does not
prevent this), entries starting `*.` store their tail in the suffix
bucket, and the remaining entries with `*` are pattern-compiled from
their whitespace-trimmed form. -/
theorem initCors_single_origin (o : List Char) (hcomma : ',' ∉ o) (hne : o ≠ [])
    (hstar : ¬ o = ['*']) (c : Cors)
    (hinit : initCors { AllowedOrigins := String.mk o } = some c) :
    c.allowAllOrigins = false ∧
    ('*' ∉ o → c.allowedStaticOrigins = [o] ∧ c.allowedSuffixOrigins = [] ∧
       c.allowedRegexOrigins = []) ∧
    (List.isPrefixOf ['*', '.'] o = true →
       c.allowedStaticOrigins = [] ∧ c.allowedSuffixOrigins = [o.drop 2] ∧
       c.allowedRegexOrigins = []) ∧
    ('*' ∈ o → List.isPrefixOf ['*', '.'] o = false →
       c.allowedStaticOrigins = [] ∧ c.allowedSuffixOrigins = [] ∧
       c.allowedRegexOrigins = [compileGlob (goTrimSpace o)]) := by
  have hlen : 0 < (String.mk o).length := List.length_pos.mpr hne
  have hsne : String.mk o ≠ "*" := by
    intro h
    have h4 : String.mk o = String.mk ['*'] := h
    exact hstar (by injection h4)
  have hsp : splitComma (String.mk o).toList = [o] := splitComma_single o hcomma
  have hsp2 : splitComma (String.mk o).data = [o] := hsp
  unfold initCors at hinit
  repeat' split at hinit
  all_goals simp only [Option.some.injEq, reduceCtorEq] at hinit
  all_goals subst hinit
  all_goals try split
  all_goals refine ⟨?_, fun hns => ?_, fun hp => ?_, fun hm hp => ?_⟩
  all_goals try have hm2 : '*' ∈ o := star_mem_of_prefix o (by assumption)
  all_goals try have hc2 : 0 < o.count '*' := List.count_pos_iff.mpr (by assumption)
  all_goals
    simp_all [hsp, hsp2, classifyOrigin, List.foldl_cons, List.foldl_nil,
      hlen, hsne]

/-! Claim theorems. -/

/-- C1 counterexample: with the configured suffix pattern `*.example.com`,
the compiled matcher also accepts the origin `http://fooexample.com`,
which the claim says is rejected (the stored tail is `example.com`
without the dot). -/
theorem c1_counterexample :
    (initCors { AllowedOrigins := "*.example.com" }).map
      (fun c => isOriginAllowed c "http://fooexample.com") = some true := by
  decide

/-- C1 (amended): for a configured single suffix pattern `*.` followed by
a comma-free tail `t`, the compiled matcher accepts an origin exactly
when the origin ends with `t` itself — the dot before the tail is not
required, so for `*.example.com` both `http://foo.example.com` and
`http://fooexample.com` are accepted. -/
theorem c1_amended (t : List Char) (origin : String) (hcomma : ',' ∉ t)
    (c : Cors)
    (hinit : initCors { AllowedOrigins := String.mk ('*' :: '.' :: t) } = some c) :
    isOriginAllowed c origin = t.isSuffixOf origin.toList := by
  obtain ⟨hall, _, hsfx, _⟩ := initCors_single_origin ('*' :: '.' :: t)
    (by simp [hcomma]) (by simp) (by simp) c hinit
  have hpre : List.isPrefixOf ['*', '.'] ('*' :: '.' :: t) = true := by
    simp [List.isPrefixOf]
  obtain ⟨hs1, hs2, hs3⟩ := hsfx hpre
  unfold isOriginAllowed
  rw [hall, hs1, hs2, hs3]
  cases hS : t.isSuffixOf origin.toList with
  | true =>
    have hsuf : t <:+ origin.toList := List.isSuffixOf_iff_suffix.mp hS
    have hsuf2 : t <:+ origin.data := hsuf
    have hle : t.length ≤ origin.length := hsuf.length_le
    simp [hS, hsuf, hsuf2, hle]
  | false =>
    have hS2 : ¬ t <:+ origin.data := fun hsuf => by
      have h5 : t.isSuffixOf origin.toList = true :=
        List.isSuffixOf_iff_suffix.mpr hsuf
      rw [h5] at hS
      exact Bool.noConfusion hS
    simp [hS, hS2]

/-- C1 witness: the amended suffix semantics at the concrete pattern
`*.example.com` and origin `http://fooexample.com`. -/
theorem c1_amended_witness :
    isOriginAllowed
      (corsOf { AllowedOrigins := String.mk ('*' :: '.' :: "example.com".toList) })
      "http://fooexample.com" = true := by
  have h := c1_amended "example.com".toList "http://fooexample.com" (by decide)
    (corsOf { AllowedOrigins := String.mk ('*' :: '.' :: "example.com".toList) })
    (by decide)
  rw [h]
  decide

/-- C2: with credentials configured on and origins resolving to allow-all
(empty or the literal `*`), the compiled policy has credentials off and no
response produced by the filter carries `Access-Control-Allow-Credentials`. -/
theorem c2_credentials_invariant (config : Config) (c : Cors) (r : Request)
    (resp : Response)
    (hcred : config.AllowCredentials = true)
    (hall : config.AllowedOrigins = "" ∨ config.AllowedOrigins = "*")
    (hinit : initCors config = some c) (hf : filter c r = some resp) :
    c.allowCredentials = false ∧
    hasHeader resp AccessControlAllowCredentials = false :=
  have h1 := initCors_credentials_off config c hall hinit
  ⟨h1, filter_no_credentials c r resp h1 hf⟩

/-- C2 witness: allow-all origins with credentials requested, on a simple
GET request. -/
theorem c2_witness :
    (corsOf { AllowedOrigins := "*", AllowCredentials := true }).allowCredentials
        = false ∧
    hasHeader (respOf (corsOf { AllowedOrigins := "*", AllowCredentials := true })
        { method := "GET", origin := "http://example.com" })
      AccessControlAllowCredentials = false :=
  c2_credentials_invariant { AllowedOrigins := "*", AllowCredentials := true }
    (corsOf { AllowedOrigins := "*", AllowCredentials := true })
    { method := "GET", origin := "http://example.com" }
    (respOf (corsOf { AllowedOrigins := "*", AllowCredentials := true })
      { method := "GET", origin := "http://example.com" })
    rfl (Or.inr rfl) (by decide) (by decide)

/-- C3 counterexample: with allow-set `{PUT}` (OPTIONS absent), a
preflight whose requested method PUT is in the allow-set is nonetheless
rejected with 405, because the filter first checks the literal method
OPTIONS against the allow-set. -/
theorem c3_counterexample :
    (filter (corsOf { AllowedOrigins := "http://foobar.com", AllowedMethods := "PUT" })
        { method := "OPTIONS", origin := "http://foobar.com", acrm := "PUT", acrh := "" }).map
      (fun resp => resp.status) = some (some 405) ∧
    isMethodAllowed
      (corsOf { AllowedOrigins := "http://foobar.com", AllowedMethods := "PUT" })
      "PUT" = true := by
  decide

/-- C3 (amended): a preflight with an allowed origin is rejected with 405
exactly when the literal method OPTIONS is absent from the allow-set or
the requested method is absent from the allow-set; the OPTIONS check is
performed first and is not skipped for preflights. -/
theorem c3_amended (c : Cors) (r : Request) (resp : Response)
    (ho : r.origin ≠ "") (hallow : isOriginAllowed c r.origin = true)
    (hm : r.method = "OPTIONS") (hf : filter c r = some resp) :
    resp.status = some 405 ↔
      (isMethodAllowed c "OPTIONS" = false ∨ isMethodAllowed c r.acrm = false) := by
  unfold filter at hf
  rw [hm, if_neg ho, hallow] at hf
  simp only [Bool.true_eq_false, if_false, ne_eq, not_true_eq_false, reduceIte] at hf
  repeat' split at hf
  all_goals simp only [Option.some.injEq, reduceCtorEq] at hf
  all_goals subst hf
  all_goals simp_all

/-- C3 witness: the amended both-checks rule at the counterexample
configuration. -/
theorem c3_amended_witness :
    (respOf (corsOf { AllowedOrigins := "http://foobar.com", AllowedMethods := "PUT" })
        { method := "OPTIONS", origin := "http://foobar.com", acrm := "PUT", acrh := "" }).status
      = some 405 ↔
    (isMethodAllowed
        (corsOf { AllowedOrigins := "http://foobar.com", AllowedMethods := "PUT" })
        "OPTIONS" = false ∨
      isMethodAllowed
        (corsOf { AllowedOrigins := "http://foobar.com", AllowedMethods := "PUT" })
        "PUT" = false) :=
  c3_amended
    (corsOf { AllowedOrigins := "http://foobar.com", AllowedMethods := "PUT" })
    { method := "OPTIONS", origin := "http://foobar.com", acrm := "PUT", acrh := "" }
    (respOf (corsOf { AllowedOrigins := "http://foobar.com", AllowedMethods := "PUT" })
      { method := "OPTIONS", origin := "http://foobar.com", acrm := "PUT", acrh := "" })
    (by decide) (by decide) rfl (by decide)

/-- C4 counterexample: with allow-set `{GET, OPTIONS}` a simple request
with method `get` (differing from GET only in case) is rejected with 405,
although its uppercased form is in the allow-set — the claim says such a
request is not rejected. -/
theorem c4_counterexample :
    (filter (corsOf { AllowedOrigins := "http://foobar.com", AllowedMethods := "GET,OPTIONS" })
        { method := "get", origin := "http://foobar.com" }).map
      (fun resp => resp.status) = some (some 405) ∧
    isMethodAllowed
      (corsOf { AllowedOrigins := "http://foobar.com", AllowedMethods := "GET,OPTIONS" })
      (String.mk (asciiUpper "get".toList)) = true := by
  decide

/-- C4 (amended): the compiler uppercases the configured allow-set but the
filter compares the incoming method without changing its case, so a
request whose raw method is not in the allow-set is rejected with 405 even
when its uppercased form is in the allow-set. -/
theorem c4_amended (c : Cors) (r : Request)
    (ho : r.origin ≠ "") (hallow : isOriginAllowed c r.origin = true)
    (hup : c.allowedMethods.contains (asciiUpper r.method.toList) = true)
    (hraw : c.allowedMethods.contains r.method.toList = false) :
    filter c r = some { headers := [(VaryHeader, OriginHeader)], status := some 405, forwarded := false } := by
  unfold filter
  have hm : isMethodAllowed c r.method = false := hraw
  rw [if_neg ho, hallow, hm]
  simp

/-- C4 witness: the rejected lowercase method `get` against allow-set
`{GET, OPTIONS}`. -/
theorem c4_amended_witness :
    filter (corsOf { AllowedOrigins := "http://foobar.com", AllowedMethods := "GET,OPTIONS" })
      { method := "get", origin := "http://foobar.com" } =
    some { headers := [(VaryHeader, OriginHeader)], status := some 405, forwarded := false } :=
  c4_amended
    (corsOf { AllowedOrigins := "http://foobar.com", AllowedMethods := "GET,OPTIONS" })
    { method := "get", origin := "http://foobar.com" }
    (by decide) (by decide) (by decide) (by decide)

/-- C5: at the claimed configuration and preflight, the status is 405 as
claimed, but the response does contain `Access-Control-Allow-Origin`
(added before the requested-method check), contradicting the claim and
the expectation written in the repository's own test. -/
theorem c5_allow_origin_present :
    (filter (corsOf { AllowedOrigins := "http://foobar.com", AllowedMethods := "PUT,DELETE,OPTIONS" })
        { method := "OPTIONS", origin := "http://foobar.com", acrm := "PATCH", acrh := "" }).map
      (fun resp => (resp.status, hasHeader resp AccessControlAllowOrigin)) =
      some (some 405, true) := by
  decide

/-- C6: `trimSpace` faults (out-of-range slice) on the all-space input of
the repository's own test, instead of returning the empty sequence; on
inputs with a non-space character it trims only spaces. -/
theorem c6_trim_faults :
    trimSpace "       ".toList = none ∧ trimSpace " a ".toList = some "a".toList := by
  decide

/-- C7: `normalizeHeaders` is not idempotent: the input `" , "` produces
two empty tokens, and re-normalizing their comma-join produces one empty
token. -/
theorem c7_not_idempotent :
    normalizeHeaders " , ".toList = some [[], []] ∧
    normalizeHeaders (List.intercalate [','] [[], []]) = some [[]] ∧
    ([[], []] : List (List Char)) ≠ [[]] := by
  decide

/-- C8 counterexample: the entry `http://a?.com` contains `?` but no `*`,
so the compiler files it verbatim in the exact-match bucket (no pattern is
compiled) and the origin `http://ab.com`, which the claimed `?` pattern
semantics would accept, is rejected. -/
theorem c8_counterexample :
    (initCors { AllowedOrigins := "http://a?.com" }).map
      (fun c => (c.allowedStaticOrigins, c.allowedRegexOrigins.length,
        isOriginAllowed c "http://ab.com")) =
      some (["http://a?.com".toList], 0, false) := by
  decide

/-- C8 (amended): the classifier splits on commas without trimming and
tests only `*`: an entry with no `*` goes verbatim to the exact bucket
(even when it contains `?`), an entry starting `*.` stores its tail in
the suffix bucket, and the remaining entries containing `*` are compiled
to a pattern from their whitespace-trimmed form where `*` matches any
sequence and `?` any single character. -/
theorem c8_amended (o : List Char) (hcomma : ',' ∉ o) (hne : o ≠ [])
    (hstar : ¬ o = ['*']) (c : Cors)
    (hinit : initCors { AllowedOrigins := String.mk o } = some c) :
    c.allowAllOrigins = false ∧
    ('*' ∉ o → c.allowedStaticOrigins = [o] ∧ c.allowedSuffixOrigins = [] ∧
       c.allowedRegexOrigins = []) ∧
    (List.isPrefixOf ['*', '.'] o = true →
       c.allowedStaticOrigins = [] ∧ c.allowedSuffixOrigins = [o.drop 2] ∧
       c.allowedRegexOrigins = []) ∧
    ('*' ∈ o → List.isPrefixOf ['*', '.'] o = false →
       c.allowedStaticOrigins = [] ∧ c.allowedSuffixOrigins = [] ∧
       c.allowedRegexOrigins = [compileGlob (goTrimSpace o)]) :=
  initCors_single_origin o hcomma hne hstar c hinit

/-- C8 witness: the `?`-only entry `http://a?.com` lands verbatim in the
exact bucket. -/
theorem c8_amended_witness :
    (corsOf { AllowedOrigins := String.mk "http://a?.com".toList }).allowedStaticOrigins
        = ["http://a?.com".toList] ∧
    (corsOf { AllowedOrigins := String.mk "http://a?.com".toList }).allowedSuffixOrigins
        = [] ∧
    (corsOf { AllowedOrigins := String.mk "http://a?.com".toList }).allowedRegexOrigins
        = [] := by
  have h := c8_amended "http://a?.com".toList (by decide) (by decide) (by decide)
    (corsOf { AllowedOrigins := String.mk "http://a?.com".toList }) (by decide)
  exact h.2.1 (by decide)

/-- C9: with maxAge configured as 0, a successful preflight response does
carry `Access-Control-Max-Age: 1800`: the compiler keeps the default
string `"1800"` when MaxAge is not positive, so the `maxAge != "0"`
suppression guard never fires, contradicting the claim and the `MaxAge`
field's own documentation. -/
theorem c9_max_age_emitted :
    (filter (corsOf { AllowedOrigins := "http://foobar.com", AllowedMethods := "PUT,DELETE,OPTIONS", MaxAge := 0 })
        { method := "OPTIONS", origin := "http://foobar.com", acrm := "PUT", acrh := "" }).map
      (fun resp => (resp.status,
        resp.headers.filter (fun kv => kv.1 == AccessControlControlMaxAge))) =
      some (some 200, [(AccessControlControlMaxAge, "1800")]) := by
  decide

/-- C10: wildcard-echo mode is enabled only by the exact literal `"*"`:
for any other configured allowed-headers value the flag is off, every
`Access-Control-Allow-Headers` header the filter adds carries the stored
allow-list string (the configured string when non-empty), and the header
allow-set is the normalization of the configured string (so a `*` entry
becomes a literal token). -/
theorem c10_wildcard_headers_literal (config : Config) (c : Cors) (r : Request)
    (resp : Response) (v : String)
    (hstar : config.AllowedHeaders ≠ "*")
    (hinit : initCors config = some c)
    (hf : filter c r = some resp)
    (hv : (AccessControlAllowHeaders, v) ∈ resp.headers) :
    c.allowAllHeaders = false ∧ v = c.allowedHeadersString ∧
    (config.AllowedHeaders ≠ "" →
      c.allowedHeadersString = config.AllowedHeaders ∧
      normalizeHeaders config.AllowedHeaders.toList = some c.allowedHeaders) := by
  obtain ⟨h1, h2, h3⟩ := initCors_headers_literal config c hstar hinit
  exact ⟨h1, filter_allow_headers_value c r resp v h1 hf hv, h3⟩

/-- C10 witness: the configured value `" * "` (spaces around the star) is
not wildcard-echo mode; the preflight response emits the configured
string verbatim. -/
theorem c10_witness :
    (corsOf { AllowedOrigins := "http://foobar.com", AllowedHeaders := " * " }).allowAllHeaders
        = false ∧
    " * " = (corsOf { AllowedOrigins := "http://foobar.com", AllowedHeaders := " * " }).allowedHeadersString ∧
    ((" * " : String) ≠ "" →
      (corsOf { AllowedOrigins := "http://foobar.com", AllowedHeaders := " * " }).allowedHeadersString = " * " ∧
      normalizeHeaders " * ".toList =
        some (corsOf { AllowedOrigins := "http://foobar.com", AllowedHeaders := " * " }).allowedHeaders) :=
  c10_wildcard_headers_literal
    { AllowedOrigins := "http://foobar.com", AllowedHeaders := " * " }
    (corsOf { AllowedOrigins := "http://foobar.com", AllowedHeaders := " * " })
    { method := "OPTIONS", origin := "http://foobar.com", acrm := "GET", acrh := "*" }
    (respOf (corsOf { AllowedOrigins := "http://foobar.com", AllowedHeaders := " * " })
      { method := "OPTIONS", origin := "http://foobar.com", acrm := "GET", acrh := "*" })
    " * " (by decide) (by decide) (by decide) (by decide)

end CorsGo
